import Mathlib

/-!
Shallow embedding of the go-tweet-cleaner repository (package cmd:
delete.go and root.go) and proofs about its selection and deletion
pipeline.

The embedding models:
* the archive tweet record (struct TwitterArchiveTweet);
* the timestamp parsing used by the sort closures
  (Go time.Parse with layout "Mon Jan 02 15:04:05 -0700 2006",
  with the parse error ignored so failures fall back to the zero time);
* the postcondition of Go sort.Slice, which is documented as NOT
  guaranteed to be stable, as a relation between input and output;
* the archive data-file discovery (runDelete lines 112-147);
* the offset/limit stage (runDelete lines 218-235);
* the dry-run / confirmation gate (runDelete lines 255-268);
* the deletion loop with its three counters, rate-limit pause,
  existence check, delete call, throttling pause and courtesy delay
  (checkTweetExists and runDelete lines 276-340), with the HTTP
  round trips abstracted as per-record outcome oracles.
-/

namespace TweetCleaner

/-- Mirrors struct TwitterArchiveTweet of cmd/delete.go:
id_str, created_at, full_text, retweeted. -/
structure TwitterArchiveTweet where
  ID : String
  CreatedAt : String
  Text : String
  Retweeted : Bool
deriving DecidableEq, Repr

/-- Numeric value of a decimal digit character, none for non-digits. -/
def digitVal (c : Char) : Option Nat :=
  if c.isDigit then some (c.toNat - 48) else none

/-- Exactly two decimal digits (Go getnum with fixed width, as for the
layout elements "02", "04", "05"). -/
def parseFixed2 : List Char → Option (Nat × List Char)
  | c1 :: c2 :: rest =>
    match digitVal c1, digitVal c2 with
    | some d1, some d2 => some (d1 * 10 + d2, rest)
    | _, _ => none
  | _ => none

/-- One or two decimal digits (Go getnum without fixed width, as for the
hour element "15"). -/
def parseNum12 : List Char → Option (Nat × List Char)
  | [] => none
  | c1 :: rest =>
    match digitVal c1 with
    | none => none
    | some d1 =>
      match rest with
      | c2 :: rest2 =>
        match digitVal c2 with
        | some d2 => some (d1 * 10 + d2, rest2)
        | none => some (d1, c2 :: rest2)
      | [] => some (d1, [])

/-- Exactly four decimal digits (Go layout element "2006"). -/
def parseFixed4 : List Char → Option (Nat × List Char)
  | c1 :: c2 :: c3 :: c4 :: rest =>
    match digitVal c1, digitVal c2, digitVal c3, digitVal c4 with
    | some d1, some d2, some d3, some d4 =>
      some (((d1 * 10 + d2) * 10 + d3) * 10 + d4, rest)
    | _, _, _, _ => none
  | _ => none

/-- Consume one expected separator character of the layout. -/
def expectChar (c : Char) : List Char → Option (List Char)
  | c1 :: rest => if c1 = c then some rest else none
  | [] => none

/-- The numeric time-zone element "-0700": a sign followed by four digits. -/
def parseZoneSign : List Char → Option (Int × List Char)
  | '+' :: t => some (1, t)
  | '-' :: t => some (-1, t)
  | _ => none

/-- Month number from the three-letter English month name of the layout. -/
def monthNum (a b c : Char) : Option Nat :=
  match a, b, c with
  | 'J', 'a', 'n' => some 1
  | 'F', 'e', 'b' => some 2
  | 'M', 'a', 'r' => some 3
  | 'A', 'p', 'r' => some 4
  | 'M', 'a', 'y' => some 5
  | 'J', 'u', 'n' => some 6
  | 'J', 'u', 'l' => some 7
  | 'A', 'u', 'g' => some 8
  | 'S', 'e', 'p' => some 9
  | 'O', 'c', 't' => some 10
  | 'N', 'o', 'v' => some 11
  | 'D', 'e', 'c' => some 12
  | _, _, _ => none

/-- Three-letter English weekday names; Go looks the name up but does not
cross-check it against the parsed date. -/
def isWeekdayName (a b c : Char) : Bool :=
  match a, b, c with
  | 'S', 'u', 'n' => true
  | 'M', 'o', 'n' => true
  | 'T', 'u', 'e' => true
  | 'W', 'e', 'd' => true
  | 'T', 'h', 'u' => true
  | 'F', 'r', 'i' => true
  | 'S', 'a', 't' => true
  | _, _, _ => false

/-- Proleptic Gregorian leap-year rule, as in Go's time package. -/
def isLeapYear (y : Nat) : Bool :=
  y % 4 == 0 && (y % 100 != 0 || y % 400 == 0)

/-- Length of month m (1-12) in year y. -/
def daysInMonth (y m : Nat) : Nat :=
  match m with
  | 1 => 31
  | 2 => if isLeapYear y then 29 else 28
  | 3 => 31
  | 4 => 30
  | 5 => 31
  | 6 => 30
  | 7 => 31
  | 8 => 31
  | 9 => 30
  | 10 => 31
  | 11 => 30
  | 12 => 31
  | _ => 0

/-- Days in year y strictly before month m. -/
def daysBeforeMonth (y m : Nat) : Nat :=
  (List.range (m - 1)).foldl (fun acc k => acc + daysInMonth y (k + 1)) 0

/-- Days from Go's zero time (January 1 of year 1, 00:00:00 UTC) to
January 1 of year y in the proleptic Gregorian calendar (negative for
year 0, the only earlier year a four-digit field can produce). -/
def daysBeforeYear (y : Nat) : Int :=
  if y = 0 then -366
  else
    let m := y - 1
    365 * (m : Int) + ((m / 4 : Nat) : Int) - ((m / 100 : Nat) : Int)
      + ((m / 400 : Nat) : Int)

/-- Embedding of Go time.Parse("Mon Jan 02 15:04:05 -0700 2006", s) as used
by the sort closures and the display formatting in runDelete. The result is
the parsed instant in seconds relative to Go's zero time (January 1, year 1,
00:00:00 UTC), so that the zero time is 0; none means time.Parse returns an
error. Mirrors the stdlib parser on this fixed layout: a three-letter
weekday name (looked up but not cross-checked against the date), a
three-letter month name, a two-digit day (range-checked against the month),
an hour of one or two digits (0-23), two-digit minutes and seconds (0-59),
a numeric zone written as a sign and four digits applied as an offset from
UTC, and a four-digit year; single-space and colon separators must match
exactly and no input may remain. -/
def parseTwitterTime (s : String) : Option Int :=
  match s.data with
  | w1 :: w2 :: w3 :: ' ' :: m1 :: m2 :: m3 :: ' ' :: rest =>
    if isWeekdayName w1 w2 w3 then
      match monthNum m1 m2 m3 with
      | none => none
      | some month =>
        match parseFixed2 rest with
        | none => none
        | some (day, r1) =>
          match expectChar ' ' r1 with
          | none => none
          | some r2 =>
            match parseNum12 r2 with
            | none => none
            | some (hour, r3) =>
              match expectChar ':' r3 with
              | none => none
              | some r4 =>
                match parseFixed2 r4 with
                | none => none
                | some (minute, r5) =>
                  match expectChar ':' r5 with
                  | none => none
                  | some r6 =>
                    match parseFixed2 r6 with
                    | none => none
                    | some (second, r7) =>
                      match expectChar ' ' r7 with
                      | none => none
                      | some r8 =>
                        match parseZoneSign r8 with
                        | none => none
                        | some (zsign, r9) =>
                          match parseFixed2 r9 with
                          | none => none
                          | some (zh, r10) =>
                            match parseFixed2 r10 with
                            | none => none
                            | some (zm, r11) =>
                              match expectChar ' ' r11 with
                              | none => none
                              | some r12 =>
                                match parseFixed4 r12 with
                                | none => none
                                | some (year, r13) =>
                                  if r13.isEmpty then
                                    if day < 1 ∨ day > daysInMonth year month then
                                      none
                                    else if hour > 23 ∨ minute > 59 ∨ second > 59 then
                                      none
                                    else
                                      let days : Int := daysBeforeYear year
                                        + (daysBeforeMonth year month : Int)
                                        + ((day : Int) - 1)
                                      let zoneOffset : Int :=
                                        zsign * ((zh : Int) * 3600 + (zm : Int) * 60)
                                      some (days * 86400 + (hour : Int) * 3600
                                        + (minute : Int) * 60 + (second : Int)
                                        - zoneOffset)
                                  else none
    else none
  | _ => none

/-- The sort key both comparison closures in runDelete use: the parse
result with the error ignored, so a created_at string that fails to parse
contributes Go's zero time, i.e. key 0. -/
def sortKey (t : TwitterArchiveTweet) : Int :=
  (parseTwitterTime t.CreatedAt).getD 0

/-- The less closure passed to sort.Slice for sort order "oldest":
timeI.Before(timeJ). -/
def lessOldest (a b : TwitterArchiveTweet) : Prop :=
  sortKey a < sortKey b

/-- The less closure passed to sort.Slice for sort order "newest":
timeI.After(timeJ). -/
def lessNewest (a b : TwitterArchiveTweet) : Prop :=
  sortKey b < sortKey a

instance (a b : TwitterArchiveTweet) : Decidable (lessOldest a b) :=
  inferInstanceAs (Decidable (sortKey a < sortKey b))

instance (a b : TwitterArchiveTweet) : Decidable (lessNewest a b) :=
  inferInstanceAs (Decidable (sortKey b < sortKey a))

/-- Postcondition of Go sort.Slice with comparison function less: the
slice afterwards is a permutation of the input in which less never holds
from a later element back to an earlier one. Go documents sort.Slice as
NOT guaranteed to be stable, so the call is embedded as this relation
between input and possible outputs rather than as one fixed output. -/
def sortSliceRel (less : TwitterArchiveTweet → TwitterArchiveTweet → Prop)
    (l out : List TwitterArchiveTweet) : Prop :=
  List.Perm l out ∧ List.Pairwise (fun a b => ¬ less b a) out

/-- The sort.Slice call of the "newest" branch of runDelete. -/
def sortNewestRel (l out : List TwitterArchiveTweet) : Prop :=
  sortSliceRel lessNewest l out

/-- The sort.Slice call of the "oldest" branch of runDelete. -/
def sortOldestRel (l out : List TwitterArchiveTweet) : Prop :=
  sortSliceRel lessOldest l out

instance (l out : List TwitterArchiveTweet) : Decidable (sortNewestRel l out) :=
  inferInstanceAs (Decidable (_ ∧ _))

instance (l out : List TwitterArchiveTweet) : Decidable (sortOldestRel l out) :=
  inferInstanceAs (Decidable (_ ∧ _))

/-- Written from the spec's words for comparison with the sort.Slice
embedding: a by-key sort keeps the relative archive order of records whose
parsed timestamps compare equal exactly when, for every key, the
subsequence of records carrying that key is unchanged. -/
def keepsEqualKeyOrder (l out : List TwitterArchiveTweet) : Prop :=
  ∀ k : Int, out.filter (fun t => sortKey t == k) = l.filter (fun t => sortKey t == k)

/-- One directory entry as seen by ioutil.ReadDir: its name and IsDir. -/
structure DirEntry where
  name : String
  isDir : Bool
deriving DecidableEq, Repr

/-- The parts of the filesystem that the data-file discovery of runDelete
consults, all relative to the archive root. -/
structure ArchiveFS where
  tweetsJsExists : Bool
  tweetsDirExists : Bool
  tweetsDirReadOk : Bool
  tweetsDirEntries : List DirEntry
  tweetJsExists : Bool
deriving DecidableEq, Repr

/-- strings.HasSuffix of the Go standard library, on the character
data of the two strings. -/
def hasSuffix (s suffix : String) : Bool :=
  List.isSuffixOf suffix.data s.data

/-- Embedding of the tweet data-file discovery (runDelete lines 112-147):
append data/tweets.js when os.Stat succeeds on it, then every
non-directory entry of data/tweets whose name ends in ".js" when that
directory exists and reads successfully, and only when both steps yielded
nothing try the legacy data/tweet.js. An empty result is the fatal
"Could not find tweet data files" exit. -/
def findTweetFiles (fs : ArchiveFS) : List String :=
  let files0 : List String := []
  let files1 := if fs.tweetsJsExists then files0 ++ ["data/tweets.js"] else files0
  let files2 :=
    if fs.tweetsDirExists && fs.tweetsDirReadOk then
      files1 ++ ((fs.tweetsDirEntries.filter
        (fun e => !e.isDir && hasSuffix e.name ".js")).map
          (fun e => "data/tweets/" ++ e.name))
    else files1
  if files2.length = 0 then
    if fs.tweetJsExists then ["data/tweet.js"] else []
  else files2

/-- Embedding of the offset/limit stage (runDelete lines 218-235) applied
to the sorted tweet list; none is the early return after the "Offset x is
greater than the number of tweets" report, which ends the run with nothing
selected. limit and offset are the Go int flags --limit (default 100) and
--offset (default 0); the whole stage is guarded by limit > 0. -/
def applyOffsetLimit (limit offset : Int) (tweets : List TwitterArchiveTweet) :
    Option (List TwitterArchiveTweet) :=
  if 0 < limit then
    match (if 0 < offset then
             (if (tweets.length : Int) ≤ offset then none
              else some (tweets.drop offset.toNat))
           else some tweets) with
    | none => none
    | some ts =>
      some (if limit < (ts.length : Int) then ts.take limit.toNat else ts)
  else some tweets

/-- Outcome of the HTTP round trip inside checkTweetExists: an error
before a response body is available (request creation, transport, or body
read) or a response carrying a status code. -/
inductive CheckOutcome where
  | netErr : CheckOutcome
  | ok : Nat → CheckOutcome
deriving DecidableEq, Repr

/-- checkTweetExists (delete.go lines 62-92): every error path returns
false, and otherwise the result is resp.StatusCode == 200, so a 404 and
every other non-200 status alike make it report the tweet as gone. -/
def checkTweetExists : CheckOutcome → Bool
  | CheckOutcome.netErr => false
  | CheckOutcome.ok code => code == 200

/-- Outcome of one delete attempt: http.NewRequest error, httpClient.Do
error, or a response carrying a status code. -/
inductive DeleteOutcome where
  | reqErr : DeleteOutcome
  | doErr : DeleteOutcome
  | ok : Nat → DeleteOutcome
deriving DecidableEq, Repr

/-- The three counters of the deletion loop (success, failures,
alreadyDeleted in runDelete). -/
structure Counters where
  success : Nat
  failures : Nat
  alreadyDeleted : Nat
deriving DecidableEq, Repr

/-- One record of the confirmed selection together with the oracle for
how the remote API answers its existence check and its delete call. -/
structure TweetExchange where
  tweet : TwitterArchiveTweet
  checkOutcome : CheckOutcome
  deleteOutcome : DeleteOutcome
deriving DecidableEq, Repr

/-- The externally visible steps of the deletion loop, in order of
occurrence. -/
inductive Event where
  | ratePause : Event
  | check : String → Event
  | deleteCall : String → Event
  | throttlePause : Event
  | courtesyDelay : Event
deriving DecidableEq, Repr

/-- The free-tier write ceiling: const rateLimit = 50 in runDelete. -/
def rateLimit : Nat := 50

/-- The body of one iteration of the deletion loop (runDelete lines
292-337), after the periodic rate-limit pause: the existence check, then
- check false: "Tweet already deleted", alreadyDeleted++, continue
  (no delete call, no courtesy delay);
- http.NewRequest error: failures++, continue (no request ever built);
- httpClient.Do error: failures++, continue (the DELETE was sent);
- status other than 200: failures++, preceded by an extra 15-minute sleep
  when the status is 429, then the courtesy delay;
- status 200: success++, then the courtesy delay. -/
def processTweet (ex : TweetExchange) (c : Counters) : Counters × List Event :=
  if !(checkTweetExists ex.checkOutcome) then
    ({ c with alreadyDeleted := c.alreadyDeleted + 1 }, [Event.check ex.tweet.ID])
  else
    match ex.deleteOutcome with
    | DeleteOutcome.reqErr =>
      ({ c with failures := c.failures + 1 }, [Event.check ex.tweet.ID])
    | DeleteOutcome.doErr =>
      ({ c with failures := c.failures + 1 },
        [Event.check ex.tweet.ID, Event.deleteCall ex.tweet.ID])
    | DeleteOutcome.ok code =>
      if code != 200 then
        ({ c with failures := c.failures + 1 },
          [Event.check ex.tweet.ID, Event.deleteCall ex.tweet.ID]
            ++ (if code == 429 then [Event.throttlePause] else [])
            ++ [Event.courtesyDelay])
      else
        ({ c with success := c.success + 1 },
          [Event.check ex.tweet.ID, Event.deleteCall ex.tweet.ID,
            Event.courtesyDelay])

/-- One full iteration of the deletion loop at zero-based index i: the
periodic pause condition i > 0 && i%rateLimit == 0 is evaluated first and
its sleep precedes everything the record's processing does. -/
def iterationChunk (i : Nat) (ex : TweetExchange) (c : Counters) :
    Counters × List Event :=
  let pauseEvs := if 0 < i ∧ i % rateLimit = 0 then [Event.ratePause] else []
  let step := processTweet ex c
  (step.1, pauseEvs ++ step.2)

/-- The deletion loop of runDelete from zero-based index i onward, with
counter state c. -/
def deleteLoopAux : Nat → List TweetExchange → Counters → Counters × List Event
  | _, [], c => (c, [])
  | i, ex :: rest, c =>
    let step := iterationChunk i ex c
    let restRun := deleteLoopAux (i + 1) rest step.1
    (restRun.1, step.2 ++ restRun.2)

/-- The whole deletion pass of runDelete (lines 277-337): the three
counters start at zero and the loop starts at index 0. -/
def deleteLoop (selection : List TweetExchange) : Counters × List Event :=
  deleteLoopAux 0 selection ⟨0, 0, 0⟩

/-- Result of runDelete from the confirmation gate on (lines 254-340). -/
inductive RunResult where
  | dryRunShown : RunResult
  | cancelled : RunResult
  | completed : Counters → List Event → RunResult
deriving DecidableEq, Repr

/-- Counters carried by a run result; at the dry-run and cancelled exits
the counter variables of runDelete were never touched, i.e. they hold
their initial zero values. -/
def RunResult.counters : RunResult → Counters
  | RunResult.completed c _ => c
  | _ => ⟨0, 0, 0⟩

/-- Events emitted by a run result; none at the dry-run and cancelled
exits, which return before the deletion loop. -/
def RunResult.events : RunResult → List Event
  | RunResult.completed _ evs => evs
  | _ => []

/-- Embedding of runDelete from the confirmation gate on (lines 255-340):
in dry-run mode print "Dry run mode - no tweets will be deleted" and
return before the deletion loop is reached; otherwise read one line,
lower-case and trim it, require exactly "y", and only then run the
deletion loop. -/
def confirmAndRun (dryRun : Bool) (response : String)
    (selection : List TweetExchange) : RunResult :=
  if !dryRun then
    let answer := response.toLower.trim
    if answer ≠ "y" then RunResult.cancelled
    else RunResult.completed (deleteLoop selection).1 (deleteLoop selection).2
  else RunResult.dryRunShown

/-- A valid created_at string: 10:00:00 UTC on 2021-06-01. -/
def ts2021Jun : String := "Tue Jun 01 10:00:00 +0000 2021"

/-- A valid created_at string: 00:00:00 UTC on 2021-01-01. -/
def ts2021Jan : String := "Fri Jan 01 00:00:00 +0000 2021"

/-- Concrete records used in witnesses and counterexamples. tweetA and
tweetB share one parsed timestamp; tweetC has an earlier one; tweetBad
has a created_at that fails to parse. -/
def tweetA : TwitterArchiveTweet := ⟨"1", ts2021Jun, "a", false⟩

def tweetB : TwitterArchiveTweet := ⟨"2", ts2021Jun, "b", false⟩

def tweetC : TwitterArchiveTweet := ⟨"3", ts2021Jan, "c", false⟩

def tweetBad : TwitterArchiveTweet := ⟨"4", "not a date", "d", false⟩

/-- A 101-record list used to exhibit the missing validation of the
documented "maximum 100" limit. -/
def manyTweets : List TwitterArchiveTweet :=
  (List.range 101).map (fun n => ⟨toString n, ts2021Jun, "t", false⟩)

/-- An exchange whose existence check answers HTTP 500 (a non-success
status that is not "not found"). -/
def exCheck500 : TweetExchange :=
  ⟨tweetA, CheckOutcome.ok 500, DeleteOutcome.ok 200⟩

/-- An exchange whose existence check answers HTTP 404. -/
def exCheck404 : TweetExchange :=
  ⟨tweetA, CheckOutcome.ok 404, DeleteOutcome.ok 200⟩

/-- An exchange that checks as existing and deletes successfully. -/
def exNormal : TweetExchange :=
  ⟨tweetA, CheckOutcome.ok 200, DeleteOutcome.ok 200⟩

/-- An exchange that checks as existing and fails to delete with 403. -/
def exFail : TweetExchange :=
  ⟨tweetB, CheckOutcome.ok 200, DeleteOutcome.ok 403⟩

/-- An archive root that has both the aggregate data/tweets.js and a
shard directory data/tweets with one shard, plus a legacy data/tweet.js. -/
def fsBoth : ArchiveFS :=
  ⟨true, true, true, [⟨"part1.js", false⟩], true⟩

/-- An archive root where only the legacy data/tweet.js exists. -/
def fsLegacyOnly : ArchiveFS := ⟨false, false, true, [], true⟩

/-- A second record whose created_at fails to parse. -/
def tweetBad2 : TwitterArchiveTweet := ⟨"5", "also not a date", "e", false⟩

/- ------------------------------------------------------------------ -/
/- Helper lemmas                                                      -/
/- ------------------------------------------------------------------ -/

/-- Each iteration body bumps the sum of the three counters by one. -/
theorem processTweet_total (ex : TweetExchange) (c : Counters) :
    (processTweet ex c).1.success + (processTweet ex c).1.failures
      + (processTweet ex c).1.alreadyDeleted
      = c.success + c.failures + c.alreadyDeleted + 1 := by
  unfold processTweet
  cases hch : checkTweetExists ex.checkOutcome <;>
    cases hdo : ex.deleteOutcome <;>
    simp [hch, hdo]
  all_goals try split_ifs
  all_goals try simp
  all_goals omega

/-- The counter component of an iteration is that of its body. -/
theorem iterationChunk_fst (i : Nat) (ex : TweetExchange) (c : Counters) :
    (iterationChunk i ex c).1 = (processTweet ex c).1 := rfl

/-- Counter-sum invariant of the deletion loop. -/
theorem deleteLoopAux_total (l : List TweetExchange) :
    ∀ (i : Nat) (c : Counters),
      (deleteLoopAux i l c).1.success + (deleteLoopAux i l c).1.failures
        + (deleteLoopAux i l c).1.alreadyDeleted
      = c.success + c.failures + c.alreadyDeleted + l.length := by
  induction l with
  | nil => intro i c; simp [deleteLoopAux]
  | cons ex rest ih =>
    intro i c
    simp only [deleteLoopAux, List.length_cons]
    rw [ih, iterationChunk_fst]
    have h := processTweet_total ex c
    omega

/-- The iteration body never emits the periodic rate-limit pause. -/
theorem processTweet_no_ratePause (ex : TweetExchange) (c : Counters) :
    Event.ratePause ∉ (processTweet ex c).2 := by
  unfold processTweet
  cases hch : checkTweetExists ex.checkOutcome <;>
    cases hdo : ex.deleteOutcome <;>
    simp [hch, hdo]
  all_goals try split_ifs
  all_goals simp

/-- The first event of every iteration body is the existence check. -/
theorem processTweet_events_head (ex : TweetExchange) (c : Counters) :
    (processTweet ex c).2.head? = some (Event.check ex.tweet.ID) := by
  unfold processTweet
  cases hch : checkTweetExists ex.checkOutcome <;>
    cases hdo : ex.deleteOutcome <;>
    simp [hch, hdo]
  all_goals try split_ifs
  all_goals simp

/-- A permutation with equal, duplicate-free images under a map is an
equality of lists. -/
theorem perm_map_nodup_eq {α β : Type} (f : α → β) (l1 l2 : List α)
    (p : List.Perm l1 l2) (hm : l1.map f = l2.map f)
    (hnd : (l1.map f).Nodup) : l1 = l2 := by
  induction l1 generalizing l2 with
  | nil => exact p.nil_eq
  | cons a t ih =>
    cases l2 with
    | nil => exact absurd p.symm.nil_eq (by simp)
    | cons b t2 =>
      have hmt : t.map f = t2.map f := by
        simpa using congrArg List.tail hm
      have hab : a = b := by
        have hmem : a ∈ b :: t2 := p.subset (List.mem_cons_self a t)
        rcases List.mem_cons.mp hmem with h | h
        · exact h
        · exfalso
          have hin : f a ∈ t2.map f := List.mem_map_of_mem f h
          have hna : f a ∉ t.map f := (List.nodup_cons.mp (by simpa using hnd)).1
          rw [hmt] at hna
          exact hna hin
      subst hab
      have pt : List.Perm t t2 := p.cons_inv
      have hndt : (t.map f).Nodup := (List.nodup_cons.mp (by simpa using hnd)).2
      rw [ih t2 pt hmt hndt]

/-- Any output of the "newest" sort.Slice call has its key sequence
pairwise non-increasing. -/
theorem sortNewestRel_keys_sorted {l out : List TwitterArchiveTweet}
    (h : sortNewestRel l out) :
    (out.map sortKey).Pairwise (fun x y : Int => y ≤ x) := by
  rw [List.pairwise_map]
  exact h.2.imp (fun hab => by
    simpa [lessNewest, not_lt] using hab)

/-- Any output of the "oldest" sort.Slice call has its key sequence
pairwise non-decreasing. -/
theorem sortOldestRel_keys_sorted {l out : List TwitterArchiveTweet}
    (h : sortOldestRel l out) :
    (out.map sortKey).Pairwise (fun x y : Int => x ≤ y) := by
  rw [List.pairwise_map]
  exact h.2.imp (fun hab => by
    simpa [lessOldest, not_lt] using hab)

/-- Two key sequences that are permutations of each other and both
pairwise non-increasing are equal. -/
theorem keys_sorted_unique {k1 k2 : List Int} (p : List.Perm k1 k2)
    (h1 : k1.Pairwise (fun x y : Int => y ≤ x))
    (h2 : k2.Pairwise (fun x y : Int => y ≤ x)) : k1 = k2 := by
  haveI : IsAntisymm Int (fun x y : Int => y ≤ x) :=
    ⟨fun a b hab hba => le_antisymm hba hab⟩
  exact List.eq_of_perm_of_sorted p h1 h2

/-- No path under the shard directory coincides with the legacy path. -/
theorem prefixed_ne_legacy (s : String) :
    ("data/tweets/" ++ s) ≠ "data/tweet.js" := by
  intro h
  have hd : ("data/tweets/" ++ s).data = "data/tweet.js".data :=
    congrArg String.data h
  rw [String.data_append] at hd
  have h12 := congrArg (List.take 12) hd
  rw [List.take_left' (by decide)] at h12
  exact absurd h12 (by decide)

/- ------------------------------------------------------------------ -/
/- Claims                                                             -/
/- ------------------------------------------------------------------ -/

/-- C1, counterexample: an existence check answering HTTP 500 — a
non-success response that is not "not found" — makes checkTweetExists
return false, so the record is counted AlreadyGone and no delete call is
ever issued for it, contrary to the claim that such a record is treated
as still present and a delete is attempted. -/
theorem c1_counterexample :
    checkTweetExists (CheckOutcome.ok 500) = false ∧
    (deleteLoop [exCheck500]).1 = ⟨0, 0, 1⟩ ∧
    (deleteLoop [exCheck500]).2 = [Event.check "1"] := by decide

/-- C1, amended: whenever the existence check reports the tweet as gone —
which happens for a 404 and equally for every other non-200 response and
for every check error — the record is counted AlreadyGone and no delete
call is issued; a delete is attempted exactly when the check answers 200
(barring a request-construction failure, which is counted Failed). -/
theorem c1_amended (ex : TweetExchange) (c : Counters) :
    (checkTweetExists ex.checkOutcome = false →
      (processTweet ex c).1 = { c with alreadyDeleted := c.alreadyDeleted + 1 } ∧
      (processTweet ex c).2 = [Event.check ex.tweet.ID]) ∧
    (checkTweetExists ex.checkOutcome = true →
      ex.deleteOutcome ≠ DeleteOutcome.reqErr →
      Event.deleteCall ex.tweet.ID ∈ (processTweet ex c).2) ∧
    (∀ s, Event.deleteCall s ∈ (processTweet ex c).2 →
      checkTweetExists ex.checkOutcome = true) := by
  unfold processTweet
  cases hch : checkTweetExists ex.checkOutcome <;>
    cases hdo : ex.deleteOutcome <;>
    simp [hch, hdo] <;> split_ifs <;> simp

/-- Witness for C1: a 404 check leaves counters at one AlreadyGone, and a
200 check leads to a delete call. -/
theorem c1_amended_witness :
    (processTweet exCheck404 ⟨0, 0, 0⟩).1 = ⟨0, 0, 1⟩ ∧
    Event.deleteCall "1" ∈ (processTweet exNormal ⟨0, 0, 0⟩).2 := by
  constructor
  · exact ((c1_amended exCheck404 ⟨0, 0, 0⟩).1 (by decide)).1
  · exact (c1_amended exNormal ⟨0, 0, 0⟩).2.1 (by decide) (by decide)

/-- C2: in dry-run mode, for every non-empty selection and any would-be
confirmation input, runDelete returns at the dry-run exit before the
deletion loop: the counters stay at their initial zeros and no event — in
particular no delete call — is produced. -/
theorem c2_dryRun (selection : List TweetExchange) (response : String)
    (hne : selection ≠ []) :
    confirmAndRun true response selection = RunResult.dryRunShown ∧
    (confirmAndRun true response selection).counters = ⟨0, 0, 0⟩ ∧
    (confirmAndRun true response selection).events = [] :=
  ⟨rfl, rfl, rfl⟩

/-- Witness for C2 at a concrete non-empty selection. -/
theorem c2_dryRun_witness :
    confirmAndRun true "y" [exNormal] = RunResult.dryRunShown :=
  (c2_dryRun [exNormal] "y" (by decide)).1

/-- C3: with a positive limit (the stage is guarded by limit > 0, and the
Selector contract takes a positive limit) and the non-empty record list
runDelete guarantees at this point, an offset at or beyond the record
count takes the RangeError early exit and nothing is selected; otherwise
the offset is applied first and the limit then truncates the remainder. -/
theorem c3_offset (limit offset : Int) (tweets : List TwitterArchiveTweet)
    (hl : 0 < limit) (hne : tweets ≠ []) :
    ((tweets.length : Int) ≤ offset →
      applyOffsetLimit limit offset tweets = none) ∧
    (offset < (tweets.length : Int) →
      applyOffsetLimit limit offset tweets =
        some (if limit < ((tweets.drop offset.toNat).length : Int) then
                (tweets.drop offset.toNat).take limit.toNat
              else tweets.drop offset.toNat)) := by
  have hlen : 0 < tweets.length := List.length_pos.mpr hne
  constructor
  · intro hoff
    have h0 : 0 < offset := by omega
    simp [applyOffsetLimit, hl, h0, hoff]
  · intro hoff
    by_cases h0 : 0 < offset
    · simp [applyOffsetLimit, hl, h0, not_le.mpr hoff]
    · have hz : offset.toNat = 0 := by omega
      simp [applyOffsetLimit, hl, h0, hz]

/-- Witness for C3: offset 5 on three records is a RangeError; offset 1
with limit 2 selects records two and three. -/
theorem c3_offset_witness :
    applyOffsetLimit 2 5 [tweetA, tweetB, tweetC] = none ∧
    applyOffsetLimit 2 1 [tweetA, tweetB, tweetC] = some [tweetB, tweetC] := by
  constructor
  · exact (c3_offset 2 5 [tweetA, tweetB, tweetC] (by decide) (by decide)).1
      (by decide)
  · exact ((c3_offset 2 1 [tweetA, tweetB, tweetC] (by decide) (by decide)).2
      (by decide)).trans (by decide)

/-- C4, code evaluated at the failing input: the repository contains no
validation of the documented "maximum 100" limit — with --limit 200 the
selection stage runs and keeps all 101 records of a 101-record archive,
instead of the run being rejected before selection. -/
theorem c4_limit_not_validated :
    applyOffsetLimit 200 0 manyTweets = some manyTweets ∧
    manyTweets.length = 101 := by
  constructor
  · simp [applyOffsetLimit, manyTweets]
  · simp [manyTweets]

/-- C5, counterexample: sort.Slice is not stable. Two records sharing one
parsed timestamp may come back in either order: the swapped output
satisfies everything the "newest" sort.Slice call guarantees, yet does
not keep the records' relative archive order. -/
theorem c5_counterexample :
    sortNewestRel [tweetA, tweetB] [tweetB, tweetA] ∧
    ¬ keepsEqualKeyOrder [tweetA, tweetB] [tweetB, tweetA] := by
  constructor
  · decide
  · intro h
    exact absurd (h (sortKey tweetA)) (by decide)

/-- C5, amended: the "newest" (resp. "oldest") sort determines the
multiset of records and the exact non-increasing (resp. non-decreasing)
key sequence, but not the relative order of records with equal parsed
timestamps, because sort.Slice carries no stability guarantee: any two
outputs it may produce are permutations of each other with identical key
sequences. -/
theorem c5_amended (l o1 o2 : List TwitterArchiveTweet) :
    (sortNewestRel l o1 → sortNewestRel l o2 →
      List.Perm o1 o2 ∧ o1.map sortKey = o2.map sortKey) ∧
    (sortOldestRel l o1 → sortOldestRel l o2 →
      List.Perm o1 o2 ∧ o1.map sortKey = o2.map sortKey) := by
  constructor
  · intro h1 h2
    have p : List.Perm o1 o2 := h1.1.symm.trans h2.1
    exact ⟨p, keys_sorted_unique (p.map sortKey)
      (sortNewestRel_keys_sorted h1) (sortNewestRel_keys_sorted h2)⟩
  · intro h1 h2
    have p : List.Perm o1 o2 := h1.1.symm.trans h2.1
    have k1 := sortOldestRel_keys_sorted h1
    have k2 := sortOldestRel_keys_sorted h2
    refine ⟨p, ?_⟩
    have hr :
        (o1.map sortKey).reverse.Pairwise (fun x y : Int => y ≤ x) := by
      rw [List.pairwise_reverse]
      exact k1
    have hr2 :
        (o2.map sortKey).reverse.Pairwise (fun x y : Int => y ≤ x) := by
      rw [List.pairwise_reverse]
      exact k2
    have prev : List.Perm (o1.map sortKey).reverse (o2.map sortKey).reverse :=
      (List.reverse_perm _).trans ((p.map sortKey).trans
        (List.reverse_perm _).symm)
    have := keys_sorted_unique prev hr hr2
    exact List.reverse_injective this

/-- Witness for C5: on two equal-key records, both orders are possible
"newest" outputs; they are permutations with equal key sequences. -/
theorem c5_amended_witness :
    List.Perm [tweetB, tweetA] [tweetA, tweetB] ∧
    [tweetB, tweetA].map sortKey = [tweetA, tweetB].map sortKey :=
  (c5_amended [tweetA, tweetB] [tweetB, tweetA] [tweetA, tweetB]).1
    (by decide) (by decide)

/-- C6, counterexample: with two records whose timestamps both parse to
the same instant, the identity ordering is simultaneously a possible
"newest" output and a possible "oldest" output, and it is not the reverse
of itself — so "newest" output being the exact reverse of "oldest" output
fails even though no timestamp fails to parse. -/
theorem c6_counterexample :
    (∀ t ∈ [tweetA, tweetB], (parseTwitterTime t.CreatedAt).isSome = true) ∧
    sortNewestRel [tweetA, tweetB] [tweetA, tweetB] ∧
    sortOldestRel [tweetA, tweetB] [tweetA, tweetB] ∧
    [tweetA, tweetB] ≠ ([tweetA, tweetB] : List TwitterArchiveTweet).reverse := by
  decide

/-- C6, amended: when every timestamp parses and the parsed timestamps
are pairwise distinct, every possible "newest" output is the exact
reverse of every possible "oldest" output. -/
theorem c6_amended (l o1 o2 : List TwitterArchiveTweet)
    (hparse : ∀ t ∈ l, (parseTwitterTime t.CreatedAt).isSome = true)
    (hnd : (l.map sortKey).Nodup)
    (h1 : sortNewestRel l o1) (h2 : sortOldestRel l o2) :
    o1 = o2.reverse := by
  have p : List.Perm o1 o2.reverse :=
    h1.1.symm.trans (h2.1.trans (List.reverse_perm o2).symm)
  have k2 : (o2.reverse.map sortKey).Pairwise (fun x y : Int => y ≤ x) := by
    rw [List.map_reverse, List.pairwise_reverse]
    exact sortOldestRel_keys_sorted h2
  have hm : o1.map sortKey = o2.reverse.map sortKey :=
    keys_sorted_unique (p.map sortKey) (sortNewestRel_keys_sorted h1) k2
  have hnd1 : (o1.map sortKey).Nodup := ((h1.1.map sortKey).nodup_iff).mp hnd
  exact perm_map_nodup_eq sortKey o1 o2.reverse p hm hnd1

/-- Witness for C6 on two records with distinct parsed timestamps. -/
theorem c6_amended_witness :
    ([tweetA, tweetC] : List TwitterArchiveTweet)
      = ([tweetC, tweetA] : List TwitterArchiveTweet).reverse :=
  c6_amended [tweetA, tweetC] [tweetA, tweetC] [tweetC, tweetA]
    (by decide) (by decide) (by decide) (by decide)

/-- C7: a record whose created_at fails to parse is given Go's zero time
as sort key, the earliest value the fallback can produce: in any "oldest"
output every record placed before it has key at most 0, and in any
"newest" output every record placed after it has key at most 0. -/
theorem c7_parse_failure_epoch (r : TwitterArchiveTweet)
    (hr : parseTwitterTime r.CreatedAt = none) :
    sortKey r = 0 ∧
    (∀ l out pre suf, sortOldestRel l out → out = pre ++ r :: suf →
      ∀ t ∈ pre, sortKey t ≤ 0) ∧
    (∀ l out pre suf, sortNewestRel l out → out = pre ++ r :: suf →
      ∀ t ∈ suf, sortKey t ≤ 0) := by
  have hk : sortKey r = 0 := by simp [sortKey, hr]
  refine ⟨hk, ?_, ?_⟩
  · intro l out pre suf h hout t ht
    subst hout
    have hp := h.2
    rw [List.pairwise_append] at hp
    have hcross : ¬ lessOldest r t := hp.2.2 t ht r (List.mem_cons_self r suf)
    simp only [lessOldest, hk, not_lt] at hcross
    exact hcross
  · intro l out pre suf h hout t ht
    subst hout
    have hp := h.2
    rw [List.pairwise_append] at hp
    have hsuf := hp.2.1
    rw [List.pairwise_cons] at hsuf
    have hrt : ¬ lessNewest t r := hsuf.1 t ht
    simp only [lessNewest, hk, not_lt] at hrt
    exact hrt

/-- Witness for C7: a parse-failing record's key is 0, and in a concrete
"oldest" output only key-zero records precede it. -/
theorem c7_witness : sortKey tweetBad = 0 ∧ sortKey tweetBad2 ≤ 0 := by
  have h := c7_parse_failure_epoch tweetBad (by decide)
  refine ⟨h.1, ?_⟩
  exact h.2.1 [tweetBad2, tweetBad] [tweetBad2, tweetBad] [tweetBad2] []
    (by decide) rfl tweetBad2 (by decide)

/-- C8, counterexample: with both the aggregate data/tweets.js and a
shard directory present, the discovery returns BOTH — the shard file
contributes although an earlier location in the claimed priority order
matched, contrary to first-match-wins. -/
theorem c8_counterexample :
    findTweetFiles fsBoth = ["data/tweets.js", "data/tweets/part1.js"] ∧
    "data/tweets/part1.js" ∈ findTweetFiles fsBoth ∧
    findTweetFiles fsBoth ≠ ["data/tweets.js"] := by decide

/-- C8, amended: the aggregate file and the shard directory both
contribute when present — the aggregate first, then every non-directory
".js" entry of the directory in directory order; only the legacy single
file is subject to first-match: it can appear only when the first two
locations yielded no file at all. -/
theorem c8_amended (fs : ArchiveFS) :
    (fs.tweetsJsExists = true → fs.tweetsDirExists = true →
      fs.tweetsDirReadOk = true →
      findTweetFiles fs = "data/tweets.js" ::
        ((fs.tweetsDirEntries.filter
            (fun e => !e.isDir && hasSuffix e.name ".js")).map
          (fun e => "data/tweets/" ++ e.name))) ∧
    ("data/tweet.js" ∈ findTweetFiles fs →
      fs.tweetsJsExists = false ∧
      ((fs.tweetsDirExists && fs.tweetsDirReadOk) = false ∨
        (fs.tweetsDirEntries.filter
          (fun e => !e.isDir && hasSuffix e.name ".js")) = [])) := by
  constructor
  · intro h1 h2 h3
    simp [findTweetFiles, h1, h2, h3]
  · intro hmem
    have hnotshard : ∀ es : List DirEntry,
        "data/tweet.js" ∉ es.map (fun e => "data/tweets/" ++ e.name) := by
      intro es hm
      obtain ⟨e, -, he⟩ := List.mem_map.mp hm
      exact prefixed_ne_legacy e.name he
    by_cases h1 : fs.tweetsJsExists
    · exfalso
      by_cases h2 : fs.tweetsDirExists && fs.tweetsDirReadOk
      · simp only [findTweetFiles, h1, h2, if_true, List.nil_append] at hmem
        simp at hmem
        obtain ⟨e, -, he⟩ := hmem
        exact prefixed_ne_legacy e.name he
      · have h2f : (fs.tweetsDirExists && fs.tweetsDirReadOk) = false := by
          simpa using h2
        simp [findTweetFiles, h1, h2f] at hmem
    · refine ⟨by simpa using h1, ?_⟩
      by_cases h2 : fs.tweetsDirExists && fs.tweetsDirReadOk
      · by_cases hfil : (fs.tweetsDirEntries.filter
            (fun e => !e.isDir && hasSuffix e.name ".js")) = []
        · exact Or.inr hfil
        · exfalso
          have h1f : fs.tweetsJsExists = false := by simpa using h1
          simp only [findTweetFiles, h1f, h2, if_true, Bool.false_eq_true,
            if_false, List.nil_append] at hmem
          rw [if_neg (by simpa [List.length_eq_zero] using hfil)] at hmem
          exact hnotshard (fs.tweetsDirEntries.filter
            (fun e => !e.isDir && hasSuffix e.name ".js")) hmem
      · exact Or.inl (by simpa using h2)

/-- Witness for C8: on an archive with both the aggregate file and one
shard, discovery returns both files, the aggregate first. -/
theorem c8_amended_witness :
    findTweetFiles fsBoth = ["data/tweets.js", "data/tweets/part1.js"] := by
  have h := (c8_amended fsBoth).1 rfl rfl rfl
  exact h.trans (by decide)

/-- C9: in every iteration of the deletion loop, the full-window
rate-limit pause happens exactly when the zero-based index i satisfies
i > 0 and i % 50 == 0 — independently of the record and of the counter
state, hence of all prior failures and successes — and when it happens it
is the iteration's first event, before the existence check; at every
other index the iteration contains no rate-limit pause. The 51st record
has zero-based index 50 and so triggers exactly one such pause. -/
theorem c9_rate_pause (i : Nat) (ex : TweetExchange) (c : Counters) :
    ((iterationChunk i ex c).2.count Event.ratePause =
      if 0 < i ∧ i % rateLimit = 0 then 1 else 0) ∧
    ((iterationChunk i ex c).2.head? = some Event.ratePause ↔
      (0 < i ∧ i % rateLimit = 0)) := by
  have hnp : (processTweet ex c).2.count Event.ratePause = 0 :=
    List.count_eq_zero.mpr (processTweet_no_ratePause ex c)
  have hhd := processTweet_events_head ex c
  unfold iterationChunk
  by_cases hcond : 0 < i ∧ i % rateLimit = 0
  · simp [hcond, hnp]
  · simp [hcond, hnp, hhd]

/-- Witness for C9: index 50 (the 51st record) gets exactly one pause, as
its first event; index 49 gets none. -/
theorem c9_rate_pause_witness :
    (iterationChunk 50 exNormal ⟨0, 0, 0⟩).2.count Event.ratePause = 1 ∧
    (iterationChunk 49 exNormal ⟨0, 0, 0⟩).2.count Event.ratePause = 0 ∧
    (iterationChunk 50 exNormal ⟨0, 0, 0⟩).2.head? = some Event.ratePause := by
  have h50 := c9_rate_pause 50 exNormal ⟨0, 0, 0⟩
  have h49 := c9_rate_pause 49 exNormal ⟨0, 0, 0⟩
  refine ⟨?_, ?_, h50.2.mpr (by decide)⟩
  · rw [h50.1]; decide
  · rw [h49.1]; decide

/-- C10: every iteration of the deletion loop increments exactly one of
the three counters, so after a full pass over the confirmed selection
Deleted + Failed + AlreadyGone equals the number of records selected. -/
theorem c10_counters_sum (selection : List TweetExchange) :
    (deleteLoop selection).1.success + (deleteLoop selection).1.failures
      + (deleteLoop selection).1.alreadyDeleted = selection.length := by
  have h := deleteLoopAux_total selection 0 ⟨0, 0, 0⟩
  simpa [deleteLoop] using h

end TweetCleaner
